import Mathlib

/-!
Shallow embedding of `proxy.py`, a protocol-translating chat-completion
proxy.  JSON values produced by `json.loads` are modelled by `JVal`;
Python dictionaries are modelled as insertion-ordered association lists
(`Obj`) with Python's update/append semantics.  Python exceptions raised
while manipulating dynamically typed values are modelled with
`Except Unit`.  Floats are modelled as exact `num/den` pairs (binary
floating-point rounding is not modelled; no claim depends on it).
-/

/-- A JSON value as produced by Python `json.loads`.  `null` doubles as
Python `None`. -/
inductive JVal where
  | null
  | bool (b : Bool)
  | int (n : Int)
  | float (num : Int) (den : Nat)
  | str (s : String)
  | arr (xs : List JVal)
  | obj (kvs : List (String × JVal))

/-- A Python dict of JSON values: insertion-ordered key/value list.
Objects obtained from `json.loads` have pairwise-distinct keys; the
operations below are nevertheless total on arbitrary lists. -/
abbrev Obj := List (String × JVal)

/-- `d.get(k)` / `d.get(k, default)`: `none` when the key is absent. -/
def Obj.get (o : Obj) (k : String) : Option JVal :=
  (o.find? (fun kv => kv.1 == k)).map (fun kv => kv.2)

/-- `k in d` for a dict. -/
def Obj.hasKey (o : Obj) (k : String) : Bool :=
  o.any (fun kv => kv.1 == k)

/-- `d[k] = v`: update in place when the key exists (Python keeps the
original position), append at the end otherwise. -/
def Obj.set (o : Obj) (k : String) (v : JVal) : Obj :=
  if o.hasKey k then
    o.map (fun kv => if kv.1 == k then (k, v) else kv)
  else
    o ++ [(k, v)]

/-- `d.setdefault(k, v)`: insert at the end only when the key is absent. -/
def Obj.setdefault (o : Obj) (k : String) (v : JVal) : Obj :=
  if o.hasKey k then o else o ++ [(k, v)]

/-- `d.pop(k, None)`'s effect on the dict: drop the key. -/
def Obj.pop (o : Obj) (k : String) : Obj :=
  o.filter (fun kv => !(kv.1 == k))

/-- Python truthiness of a JSON value (`bool(v)`). -/
def pyTruthy : JVal → Bool
  | .null => false
  | .bool b => b
  | .int n => n != 0
  | .float n _ => n != 0
  | .str s => !s.isEmpty
  | .arr xs => !xs.isEmpty
  | .obj kvs => !kvs.isEmpty

/-- `v is None` / structural test used by the sync minimization filter. -/
def JVal.isNull : JVal → Bool
  | .null => true
  | _ => false

/-- `v == {}`: true exactly for the empty mapping. -/
def JVal.isEmptyObj : JVal → Bool
  | .obj [] => true
  | _ => false

/-- Characters stripped by Python `str.strip()` (ASCII whitespace; the
additional Unicode space classes Python strips never occur in the
claims). -/
def isSpaceChar (c : Char) : Bool :=
  c == ' ' || c == '\t' || c == '\n' || c == '\r' || c == '\x0b' || c == '\x0c'

/-- `s.strip()`. -/
def pyStrip (s : String) : String :=
  ⟨((s.data.dropWhile isSpaceChar).reverse.dropWhile isSpaceChar).reverse⟩

/-- Prefix test on character lists (kernel-reducible `startswith`). -/
def charsPrefix : List Char → List Char → Bool
  | [], _ => true
  | _ :: _, [] => false
  | c :: cs, d :: ds => c == d && charsPrefix cs ds

/-- `s.startswith(p)`. -/
def pyStartsWith (s p : String) : Bool :=
  charsPrefix p.data s.data

/-- `s[n:]`. -/
def pyDropChars (s : String) (n : Nat) : String :=
  ⟨s.data.drop n⟩

/-- Substring test used by Python's `needle in s` on strings. -/
def strContainsSub (s needle : String) : Bool :=
  s.data.tails.any (fun t => charsPrefix needle.data t)

/-- Python `int(s)` on a string: optional surrounding whitespace, optional
sign, then a nonempty run of ASCII digits (digit-group underscores and
non-ASCII digits are not modelled; no claim uses them). -/
def pyIntOfString (s : String) : Option Int :=
  let cs := (pyStrip s).data
  let signAndDigits : Int × List Char :=
    match cs with
    | '-' :: rest => (-1, rest)
    | '+' :: rest => (1, rest)
    | rest => (1, rest)
  let ds := signAndDigits.2
  if !ds.isEmpty && ds.all (fun c => c.isDigit) then
    some (signAndDigits.1 * ((ds.foldl (fun n c => n * 10 + (c.toNat - 48)) 0 : Nat) : Int))
  else
    none

/-- Python `int(v)` for JSON values: ints pass through, booleans map to
0/1, floats truncate toward zero, numeric strings parse; everything else
raises (`none`). -/
def pyToInt : JVal → Option Int
  | .int n => some n
  | .bool b => some (if b then 1 else 0)
  | .float n d => some (if 0 ≤ n then ((n.natAbs / d : Nat) : Int) else -((n.natAbs / d : Nat) : Int))
  | .str s => pyIntOfString s
  | _ => none

/-- `k in v` for Python membership: substring test on strings, key test on
dicts, `==`-membership on lists (a string equals only an equal string
among JSON values); other values raise `TypeError`. -/
def pyIn (needle : String) : JVal → Except Unit Bool
  | .str s => .ok (strContainsSub s needle)
  | .obj kvs => .ok (Obj.hasKey kvs needle)
  | .arr xs => .ok (xs.any (fun v => match v with | .str t => t == needle | _ => false))
  | _ => .error ()

/-- `v[k]` subscription with a string key: dict lookup (`KeyError` when
absent); every non-dict raises `TypeError`. -/
def pySubscript (v : JVal) (k : String) : Except Unit JVal :=
  match v with
  | .obj kvs =>
      match Obj.get kvs k with
      | some x => .ok x
      | none => .error ()
  | _ => .error ()

/-- One element of the sequence form of `dict(seq)`: it must iterate to
exactly two items, the first hashable.  A two-element array with a
string key yields that pair (an array/mapping key raises
`TypeError: unhashable type`; any other length raises `ValueError`); a
two-character string yields its two characters; a two-key mapping
iterates to its two keys.  A two-item form whose key is a hashable
non-string (e.g. `[1, 2]`) builds a Python dict with a non-string key,
which the string-keyed `Obj` representation cannot hold; that corner is
modelled as an error (no claim reaches it). -/
def pyPair : JVal → Except Unit (String × JVal)
  | .arr [k, v] =>
      match k with
      | .str s => .ok (s, v)
      | _ => .error ()
  | .str s =>
      match s.data with
      | [c1, c2] => .ok (⟨[c1]⟩, .str ⟨[c2]⟩)
      | _ => .error ()
  | .obj [(k1, _), (k2, _)] => .ok (k1, .str k2)
  | _ => .error ()

/-- `dict(v)`: copies a mapping; a sequence builds a dict from its
elements viewed as key/value pairs (later duplicates overwrite in
place, like repeated `d[k] = v`); a nonempty string raises (its
elements are one-character strings, the wrong length); everything else
raises `TypeError`. -/
def pyDict : JVal → Except Unit Obj
  | .obj kvs => .ok kvs
  | .arr xs =>
      xs.foldlM
        (fun acc x =>
          match pyPair x with
          | .error e => .error e
          | .ok kv => .ok (Obj.set acc kv.1 kv.2))
        []
  | .str "" => .ok []
  | _ => .error ()

/-! ## Static configuration (`MODELS`, `MODEL_ALIASES`, `DEFAULT_MODEL`) -/

structure ModelProfile where
  url : String
  max_tokens : Int

def MODELS : List (String × ModelProfile) :=
  [("glm-4.7", ⟨"https://api.z.ai/api/coding/paas/v4/chat/completions", 8192⟩),
   ("glm-4.7-flash", ⟨"https://api.z.ai/api/paas/v4/chat/completions", 8192⟩)]

def MODEL_ALIASES : List (String × String) :=
  [("gpt-4", "glm-4.7"),
   ("gpt-4o", "glm-4.7"),
   ("gpt-4-turbo", "glm-4.7"),
   ("gpt-3.5-turbo", "glm-4.7-flash"),
   ("gpt-4o-mini", "glm-4.7-flash"),
   ("claude-3-sonnet", "glm-4.7"),
   ("claude-3-haiku", "glm-4.7-flash")]

def DEFAULT_MODEL : String := "glm-4.7-flash"

/-- `name in MODELS`. -/
def isModelId (m : String) : Bool :=
  (MODELS.find? (fun kv => kv.1 == m)).isSome

/-- `resolve_model` from proxy.py: exact profile id, else alias table,
else the fixed default. -/
def resolve_model (name : String) : String :=
  if isModelId name then name
  else ((MODEL_ALIASES.find? (fun kv => kv.1 == name)).map (fun kv => kv.2)).getD DEFAULT_MODEL

/-- Whether `name in MODELS` (and the alias `dict.get`) can hash the
value: Python raises `TypeError: unhashable type` for list and dict
values; every other JSON value is hashable. -/
def pyHashable : JVal → Bool
  | .arr _ => false
  | .obj _ => false
  | _ => true

/-- `resolve_model` applied to the raw JSON value of the inbound `model`
field, for hashable values only (`handle_chat_payload` checks
hashability first, since an unhashable value makes `name in MODELS`
raise): a hashable non-string is in neither table, so it falls to the
default. -/
def resolve_model_jval : JVal → String
  | .str s => resolve_model s
  | _ => DEFAULT_MODEL

/-- `clamp_max_tokens(value, limit)` from proxy.py.  `value` is the raw
JSON value of `payload.get("max_tokens")`, with Python `None` (absent
key or JSON null) as `JVal.null`. -/
def clamp_max_tokens (value : JVal) (limit : Int) : Int :=
  match value with
  | .null => min 4096 limit
  | v =>
      match pyToInt v with
      | some n => min n limit
      | none => min 4096 limit

/-- `ensure_role(message, default)` from proxy.py.  The `dict(message)`
copy-and-`setdefault` branch is the shared fall-through of the Python
control flow; it appears twice here because the early `return` inside
the `if` is written out explicitly. -/
def ensure_role (message : JVal) (dflt : String) : Except Unit JVal :=
  if !(pyTruthy message) then
    .ok (JVal.obj [("role", .str dflt), ("content", .str "")])
  else
    match pyIn "role" message with
    | .error e => .error e
    | .ok hasRole =>
        if hasRole then
          match pySubscript message "role" with
          | .error e => .error e
          | .ok r =>
              if pyTruthy r then .ok message
              else
                match pyDict message with
                | .error e => .error e
                | .ok m => .ok (JVal.obj (Obj.setdefault m "role" (.str dflt)))
        else
          match pyDict message with
          | .error e => .error e
          | .ok m => .ok (JVal.obj (Obj.setdefault m "role" (.str dflt)))

/-- `MESSAGE_LEVEL_FIELDS` from proxy.py.  The source stores them in a
set whose iteration order is unspecified; the claims only depend on
membership, so the written order is used. -/
def MESSAGE_LEVEL_FIELDS : List String :=
  ["tool_calls", "function_call", "reasoning_content", "metadata",
   "audio", "mcp_calls", "mcp_metadata"]

/-- The hoisting loop shared by both choice normalizers: each extension
field present on the choice and absent from the message/delta dict is
copied (with the choice-level value) into that dict. -/
def hoist_fields (c : Obj) (m : Obj) : Obj :=
  MESSAGE_LEVEL_FIELDS.foldl
    (fun acc f =>
      if Obj.hasKey c f && !(Obj.hasKey acc f) then
        Obj.set acc f ((Obj.get c f).getD .null)
      else acc)
    m

/-- `normalize_choice(choice, idx)` before the final minimization filter.
A non-mapping choice raises (`dict(choice)` / `choice.get`). -/
def choice_prefilter (choice : JVal) (idx : Nat) : Except Unit Obj :=
  match choice with
  | .obj c =>
      let n := Obj.set c "index" ((Obj.get c "index").getD (.int idx))
      let n := Obj.set n "finish_reason" ((Obj.get c "finish_reason").getD .null)
      let msg0 := (Obj.get c "message").getD .null
      let msg1 := if !(pyTruthy msg0) && Obj.hasKey c "delta" then
                    (Obj.get c "delta").getD .null
                  else msg0
      match ensure_role (if pyTruthy msg1 then msg1 else JVal.obj []) "assistant" with
      | .error e => .error e
      | .ok nm =>
          let nm := match nm with
            | .obj m => JVal.obj (hoist_fields c m)
            | other => other
          .ok (Obj.pop (Obj.set n "message" nm) "delta")
  | _ => .error ()

/-- `normalize_choice`: prefilter plus the sync minimization
`{k: v for k, v in … if v not in (None, {})}`. -/
def normalize_choice (choice : JVal) (idx : Nat) : Except Unit Obj :=
  (choice_prefilter choice idx).map
    (List.filter (fun kv => !(kv.2.isNull || kv.2.isEmptyObj)))

/-- `normalize_stream_choice(choice, idx)` before the final filter. -/
def stream_choice_prefilter (choice : JVal) (idx : Nat) : Except Unit Obj :=
  match choice with
  | .obj c =>
      let n := Obj.set c "index" ((Obj.get c "index").getD (.int idx))
      let n := Obj.set n "finish_reason" ((Obj.get c "finish_reason").getD .null)
      let d0 := (Obj.get c "delta").getD .null
      let d1 := if pyTruthy d0 then d0 else (Obj.get c "message").getD .null
      let delta := if pyTruthy d1 then d1 else JVal.obj []
      let delta := match delta with
        | .obj d => JVal.obj (hoist_fields c d)
        | other => other
      let n := if pyTruthy delta then Obj.set n "delta" delta else n
      .ok (Obj.pop n "message")
  | _ => .error ()

/-- `normalize_stream_choice`: prefilter plus the stream filter
`{k: v for k, v in … if v is not None}` (empty mappings are kept). -/
def normalize_stream_choice (choice : JVal) (idx : Nat) : Except Unit Obj :=
  (stream_choice_prefilter choice idx).map
    (List.filter (fun kv => !kv.2.isNull))

/-- The synthesized default choice of `normalize_response`. -/
def default_choice : Obj :=
  [("index", .int 0),
   ("message", .obj [("role", .str "assistant"), ("content", .str "")]),
   ("finish_reason", .str "stop")]

/-- `iter(v)` as used by `enumerate`: lists iterate elements, strings
characters, dicts keys; other values raise `TypeError`. -/
def pyIter : JVal → Except Unit (List JVal)
  | .arr xs => .ok xs
  | .str s => .ok (s.data.map (fun c => .str ⟨[c]⟩))
  | .obj kvs => .ok (kvs.map (fun kv => .str kv.1))
  | _ => .error ()

/-- The `[f(x, i) for i, x in enumerate(...)]` comprehension over a
fallible body: first exception aborts (propagates out of the list). -/
def mapEx (f : Nat × JVal → Except Unit Obj) : List (Nat × JVal) → Except Unit (List Obj)
  | [] => .ok []
  | a :: t =>
      match f a with
      | .error e => .error e
      | .ok b =>
          match mapEx f t with
          | .error e => .error e
          | .ok bs => .ok (b :: bs)

/-- `normalize_response(result, model)` from proxy.py.  `newId` stands
for the random `make_openai_id()` token and `now` for
`int(time.time())`, both passed in explicitly. -/
def normalize_response (result : JVal) (model newId : String) (now : Int) :
    Except Unit Obj :=
  match result with
  | .obj r =>
      let resp := Obj.setdefault r "id" (.str newId)
      let resp := Obj.setdefault resp "object" (.str "chat.completion")
      let resp := Obj.setdefault resp "created" (.int now)
      let resp := Obj.set resp "model" (.str model)
      match pyIter ((Obj.get r "choices").getD (.arr [])) with
      | .error e => .error e
      | .ok cs =>
          match mapEx (fun ic => normalize_choice ic.2 ic.1) cs.enum with
          | .error e => .error e
          | .ok ncs =>
              let ncs := if ncs.isEmpty then [default_choice] else ncs
              .ok (Obj.set resp "choices" (.arr (ncs.map JVal.obj)))
  | _ => .error ()

/-- `extract_text_from_choices` over already-normalized stream choices.
Appending a non-string `text` block value raises `TypeError` (`none`
propagates as the loop-aborting exception in `do_stream`). -/
def extract_text_from_choices (choices : List Obj) : Except Unit String :=
  choices.foldlM
    (fun total choice =>
      let delta := (Obj.get choice "delta").getD (.obj [])
      let content : JVal := match delta with
        | .obj d => (Obj.get d "content").getD .null
        | _ => .null
      match content with
      | .str s => .ok (total ++ s)
      | .arr blocks =>
          blocks.foldlM
            (fun t b => match b with
              | .obj bo =>
                  match (Obj.get bo "text").getD (.str "") with
                  | .str s => .ok (t ++ s)
                  | _ => .error ()
              | _ => .ok t)
            total
      | _ => .ok total)
    ""

/-! ## `handle_chat` payload construction -/

/-- The defaulting steps of `handle_chat`:
`payload.setdefault("messages", [])` followed by
`if "temperature" not in payload: payload["temperature"] = 0.7`. -/
def payload_defaults (body : Obj) : Obj :=
  let p := Obj.setdefault body "messages" (.arr [])
  if Obj.hasKey p "temperature" then p else Obj.set p "temperature" (.float 7 10)

/-- The `payload = dict(body); …` block of `handle_chat`: copy, default
`messages`/`temperature`, overwrite `model`/`stream`/`max_tokens`. -/
def build_payload (body : Obj) (model : String) (stream : JVal) (limit : Int) : Obj :=
  let p := Obj.set (Obj.set (payload_defaults body) "model" (.str model)) "stream" stream
  Obj.set p "max_tokens"
    (.int (clamp_max_tokens ((Obj.get p "max_tokens").getD .null) limit))

/-- The upstream payload built by `handle_chat` from the parsed inbound
body: resolve the model and build the payload.  `none` models the
handler raising without building a payload: the `TypeError` of
`name in MODELS` on an unhashable (list/dict) model value, and the
unreachable `KeyError` of `MODELS[model]`. -/
def handle_chat_payload (body : Obj) : Option Obj :=
  let requested := (Obj.get body "model").getD (.str DEFAULT_MODEL)
  if pyHashable requested then
    let model := resolve_model_jval requested
    match MODELS.find? (fun kv => kv.1 == model) with
    | none => none
    | some mcfg =>
        some (build_payload body model ((Obj.get body "stream").getD (.bool false))
          mcfg.2.max_tokens)
  else none

/-! ## `do_stream` -/

/-- An outbound server-sent-event frame: a JSON data frame or the literal
`data: [DONE]` sentinel. -/
inductive Frame where
  | data (v : JVal)
  | done

def Frame.isDone : Frame → Bool
  | .done => true
  | _ => false

/-- Per-chunk frame construction in the `do_stream` loop body: normalize
the choices, run the logging text extraction (its exceptions abort the
loop), then assemble the outbound envelope with defaults and extras
passthrough. -/
def build_stream_frame (chunk : JVal) (model chatId : String) (now : Int) :
    Except Unit Frame :=
  match chunk with
  | .obj ch =>
      match pyIter ((Obj.get ch "choices").getD (.arr [])) with
      | .error e => .error e
      | .ok cs =>
          match mapEx (fun ic => normalize_stream_choice ic.2 ic.1) cs.enum with
          | .error e => .error e
          | .ok ncs =>
              match extract_text_from_choices ncs with
              | .error e => .error e
              | .ok _ =>
                  let oai : Obj :=
                    [("id", (Obj.get ch "id").getD (.str chatId)),
                     ("object", (Obj.get ch "object").getD (.str "chat.completion.chunk")),
                     ("created", (Obj.get ch "created").getD (.int now)),
                     ("model", (Obj.get ch "model").getD (.str model)),
                     ("choices", .arr (ncs.map JVal.obj))]
                  let oai := ["usage", "system_fingerprint", "service_tier", "metadata"].foldl
                    (fun acc extra =>
                      if Obj.hasKey ch extra then
                        Obj.set acc extra ((Obj.get ch extra).getD .null)
                      else acc)
                    oai
                  .ok (Frame.data (.obj oai))
  | _ => .error ()

/-- Outcome of one iteration of the `for line in resp` loop. -/
inductive LineStep where
  /-- blank line, missing `data:` marker, or JSON decode failure -/
  | skip
  /-- the payload was the `[DONE]` sentinel: forward it and break -/
  | done
  /-- a normalized outbound frame was written -/
  | frame (f : Frame)
  /-- an exception escaped the loop body (caught by the outer handler) -/
  | err

/-- One iteration of the stream loop on a decoded upstream line.
`parse` stands for `json.loads` on the stripped payload. -/
def line_step (parse : String → Option JVal) (model chatId : String)
    (now : Int) (l : String) : LineStep :=
  let line := pyStrip l
  if line.data.isEmpty || !(pyStartsWith line "data:") then .skip
  else
    let dataStr := pyStrip (pyDropChars line 5)
    if dataStr == "[DONE]" then .done
    else
      match parse dataStr with
      | none => .skip
      | some chunk =>
          match build_stream_frame chunk model chatId now with
          | .ok f => .frame f
          | .error _ => .err

/-- The `for line in resp` loop of `do_stream`: returns the emitted
frames and the final `done_sent` flag.  An in-body exception stops
consumption with `done_sent` still false. -/
def stream_loop (parse : String → Option JVal) (model chatId : String)
    (now : Int) : List String → List Frame × Bool
  | [] => ([], false)
  | l :: rest =>
      match line_step parse model chatId now l with
      | .skip => stream_loop parse model chatId now rest
      | .done => ([Frame.done], true)
      | .err => ([], false)
      | .frame f =>
          let r := stream_loop parse model chatId now rest
          (f :: r.1, r.2)

/-- `do_stream` over a finite sequence of decoded upstream lines (an
upstream read error truncates the sequence): the loop followed by the
`finally` block that synthesizes the sentinel when it was never sent. -/
def do_stream (parse : String → Option JVal) (model chatId : String)
    (now : Int) (lines : List String) : List Frame :=
  let r := stream_loop parse model chatId now lines
  if r.2 then r.1 else r.1 ++ [Frame.done]

/-! ## Association-list lemmas -/

theorem Obj.get_cons (kv : String × JVal) (t : Obj) (k : String) :
    Obj.get (kv :: t) k = if kv.1 = k then some kv.2 else Obj.get t k := by
  by_cases h : kv.1 = k <;> simp [Obj.get, List.find?_cons, h]

theorem Obj.hasKey_cons (kv : String × JVal) (t : Obj) (k : String) :
    Obj.hasKey (kv :: t) k = (decide (kv.1 = k) || Obj.hasKey t k) := by
  by_cases h : kv.1 = k <;> simp [Obj.hasKey, h]

theorem Obj.get_append_single_ne (o : Obj) (k' k : String) (v : JVal) (h : k' ≠ k) :
    Obj.get (o ++ [(k', v)]) k = Obj.get o k := by
  induction o with
  | nil => simp [Obj.get_cons, h, Obj.get]
  | cons kv t ih => simp [Obj.get_cons, ih]

theorem Obj.hasKey_append_single_ne (o : Obj) (k' k : String) (v : JVal) (h : k' ≠ k) :
    Obj.hasKey (o ++ [(k', v)]) k = Obj.hasKey o k := by
  induction o with
  | nil => simp [Obj.hasKey, h]
  | cons kv t ih => rw [List.cons_append, Obj.hasKey_cons, Obj.hasKey_cons, ih]

theorem Obj.get_map_set_ne (o : Obj) (k' k : String) (v : JVal) (h : k' ≠ k) :
    Obj.get (o.map (fun kv => if kv.1 == k' then (k', v) else kv)) k = Obj.get o k := by
  induction o with
  | nil => rfl
  | cons kv t ih =>
    rw [List.map_cons]
    by_cases hk : kv.1 = k'
    · have h1 : kv.1 ≠ k := by rw [hk]; exact h
      rw [if_pos (by simp [hk]), Obj.get_cons, Obj.get_cons, if_neg h, if_neg h1]
      exact ih
    · rw [if_neg (by simp [hk]), Obj.get_cons, Obj.get_cons]
      by_cases h2 : kv.1 = k
      · rw [if_pos h2, if_pos h2]
      · rw [if_neg h2, if_neg h2]
        exact ih

theorem Obj.get_set_ne (o : Obj) (k' k : String) (v : JVal) (h : k' ≠ k) :
    Obj.get (Obj.set o k' v) k = Obj.get o k := by
  unfold Obj.set
  split
  · exact Obj.get_map_set_ne o k' k v h
  · exact Obj.get_append_single_ne o k' k v h

theorem Obj.get_set_self (o : Obj) (k : String) (v : JVal) :
    Obj.get (Obj.set o k v) k = some v := by
  unfold Obj.set
  split
  · rename_i h
    induction o with
    | nil => simp [Obj.hasKey] at h
    | cons kv t ih =>
      rw [List.map_cons]
      by_cases hk : kv.1 = k
      · rw [if_pos (by simp [hk]), Obj.get_cons]
        simp
      · rw [Obj.hasKey_cons] at h
        have h' : Obj.hasKey t k = true := by
          rcases (Bool.or_eq_true _ _).mp h with h1 | h1
          · exact absurd (of_decide_eq_true h1) hk
          · exact h1
        rw [if_neg (by simp [hk]), Obj.get_cons, if_neg hk]
        exact ih h'
  · rename_i h
    induction o with
    | nil => simp [Obj.get_cons, Obj.get]
    | cons kv t ih =>
      rw [Obj.hasKey_cons] at h
      simp only [Bool.or_eq_true, decide_eq_true_eq, not_or] at h
      rw [List.cons_append, Obj.get_cons, if_neg h.1]
      exact ih (by simp [h.2])

theorem Obj.get_setdefault_ne (o : Obj) (k' k : String) (v : JVal) (h : k' ≠ k) :
    Obj.get (Obj.setdefault o k' v) k = Obj.get o k := by
  unfold Obj.setdefault
  split
  · rfl
  · exact Obj.get_append_single_ne o k' k v h

theorem Obj.get_setdefault_present (o : Obj) (k : String) (v : JVal)
    (h : Obj.hasKey o k = true) : Obj.get (Obj.setdefault o k v) k = Obj.get o k := by
  unfold Obj.setdefault
  simp [h]

theorem Obj.get_setdefault_absent (o : Obj) (k : String) (v : JVal)
    (h : Obj.hasKey o k = false) : Obj.get (Obj.setdefault o k v) k = some v := by
  unfold Obj.setdefault
  rw [h]
  simp only [Bool.false_eq_true, if_false]
  induction o with
  | nil => simp [Obj.get_cons, Obj.get]
  | cons kv t ih =>
    rw [Obj.hasKey_cons] at h
    simp only [Bool.or_eq_false_iff, decide_eq_false_iff_not] at h
    rw [List.cons_append, Obj.get_cons, if_neg h.1]
    exact ih (by simp [h.2])

theorem Obj.hasKey_setdefault_ne (o : Obj) (k' k : String) (v : JVal) (h : k' ≠ k) :
    Obj.hasKey (Obj.setdefault o k' v) k = Obj.hasKey o k := by
  unfold Obj.setdefault
  split
  · rfl
  · exact Obj.hasKey_append_single_ne o k' k v h

theorem Obj.get_pop_ne (o : Obj) (k' k : String) (h : k' ≠ k) :
    Obj.get (Obj.pop o k') k = Obj.get o k := by
  unfold Obj.pop
  induction o with
  | nil => simp
  | cons kv t ih =>
    rw [List.filter_cons]
    by_cases hk : kv.1 = k'
    · have h1 : kv.1 ≠ k := by rw [hk]; exact h
      rw [if_neg (by simp [hk]), Obj.get_cons, if_neg h1]
      exact ih
    · rw [if_pos (by simp [hk]), Obj.get_cons, Obj.get_cons]
      by_cases h2 : kv.1 = k
      · rw [if_pos h2, if_pos h2]
      · rw [if_neg h2, if_neg h2]
        exact ih

theorem Obj.get_filter (o : Obj) (p : String × JVal → Bool) (k : String) (v : JVal)
    (hget : Obj.get o k = some v) (hp : p (k, v) = true) :
    Obj.get (o.filter p) k = some v := by
  induction o with
  | nil => simp [Obj.get] at hget
  | cons kv t ih =>
    rw [Obj.get_cons] at hget
    by_cases hk : kv.1 = k
    · rw [if_pos hk] at hget
      obtain ⟨k1, v1⟩ := kv
      simp only at hk hget
      obtain rfl := hk
      obtain rfl := Option.some.inj hget
      simp [List.filter_cons, hp, Obj.get_cons]
    · rw [if_neg hk] at hget
      rw [List.filter_cons]
      by_cases hkeep : p kv = true
      · rw [if_pos hkeep, Obj.get_cons, if_neg hk]
        exact ih hget
      · rw [if_neg (by simp [hkeep])]
        exact ih hget

theorem Obj.mem_map_set (o : Obj) (k : String) (v : JVal) (kv : String × JVal)
    (h : kv ∈ o.map (fun kv => if kv.1 == k then (k, v) else kv)) :
    kv = (k, v) ∨ (kv ∈ o ∧ kv.1 ≠ k) := by
  induction o with
  | nil => simp at h
  | cons hd t ih =>
    simp only [List.map_cons, List.mem_cons] at h
    rcases h with h | h
    · by_cases hk : hd.1 = k
      · rw [if_pos (by simp [hk])] at h
        exact Or.inl h
      · rw [if_neg (by simp [hk])] at h
        exact Or.inr ⟨by simp [h], h ▸ hk⟩
    · rcases ih h with h' | h'
      · exact Or.inl h'
      · exact Or.inr ⟨List.mem_cons_of_mem _ h'.1, h'.2⟩

theorem Obj.mem_set (o : Obj) (k : String) (v : JVal) (kv : String × JVal)
    (h : kv ∈ Obj.set o k v) : kv = (k, v) ∨ (kv ∈ o ∧ kv.1 ≠ k) := by
  unfold Obj.set at h
  split at h
  · exact Obj.mem_map_set o k v kv h
  · rename_i hnk
    rw [List.mem_append] at h
    rcases h with h | h
    · right
      refine ⟨h, fun hk => ?_⟩
      apply hnk
      unfold Obj.hasKey
      rw [List.any_eq_true]
      exact ⟨kv, h, by simp [hk]⟩
    · simp only [List.mem_singleton] at h
      exact Or.inl h

theorem Obj.mem_setdefault (o : Obj) (k : String) (v : JVal) (kv : String × JVal)
    (h : kv ∈ Obj.setdefault o k v) : kv = (k, v) ∨ kv ∈ o := by
  unfold Obj.setdefault at h
  split at h
  · exact Or.inr h
  · rw [List.mem_append] at h
    rcases h with h | h
    · exact Or.inr h
    · simp only [List.mem_singleton] at h
      exact Or.inl h

theorem Obj.mem_pop (o : Obj) (k : String) (kv : String × JVal)
    (h : kv ∈ Obj.pop o k) : kv ∈ o ∧ kv.1 ≠ k := by
  unfold Obj.pop at h
  rw [List.mem_filter] at h
  exact ⟨h.1, by simpa using h.2⟩

theorem Obj.hasKey_filter_of_all_dropped (o : Obj) (p : String × JVal → Bool) (k : String)
    (h : ∀ kv ∈ o, kv.1 = k → p kv = false) :
    Obj.hasKey (o.filter p) k = false := by
  unfold Obj.hasKey
  rw [Bool.eq_false_iff]
  intro hany
  rw [List.any_eq_true] at hany
  obtain ⟨kv, hmem, hk⟩ := hany
  rw [List.mem_filter] at hmem
  have := h kv hmem.1 (by simpa using hk)
  rw [this] at hmem
  exact Bool.false_ne_true hmem.2

/-! ## Payload-construction lemmas -/

theorem payload_defaults_get_ne (body : Obj) (k : String)
    (h1 : k ≠ "messages") (h2 : k ≠ "temperature") :
    Obj.get (payload_defaults body) k = Obj.get body k := by
  unfold payload_defaults
  dsimp only
  split
  · exact Obj.get_setdefault_ne body "messages" k _ (Ne.symm h1)
  · rw [Obj.get_set_ne _ "temperature" k _ (Ne.symm h2)]
    exact Obj.get_setdefault_ne body "messages" k _ (Ne.symm h1)

theorem build_payload_get_passthrough (body : Obj) (model : String) (stream : JVal)
    (limit : Int) (k : String) (h1 : k ≠ "messages") (h2 : k ≠ "temperature")
    (h3 : k ≠ "model") (h4 : k ≠ "stream") (h5 : k ≠ "max_tokens") :
    Obj.get (build_payload body model stream limit) k = Obj.get body k := by
  unfold build_payload
  dsimp only
  rw [Obj.get_set_ne _ "max_tokens" k _ (Ne.symm h5),
    Obj.get_set_ne _ "stream" k _ (Ne.symm h4),
    Obj.get_set_ne _ "model" k _ (Ne.symm h3)]
  exact payload_defaults_get_ne body k h1 h2

theorem build_payload_pre_max_tokens (body : Obj) (model : String) (stream : JVal) :
    Obj.get (Obj.set (Obj.set (payload_defaults body) "model" (.str model)) "stream" stream)
        "max_tokens" = Obj.get body "max_tokens" := by
  rw [Obj.get_set_ne _ "stream" "max_tokens" _ (by decide),
    Obj.get_set_ne _ "model" "max_tokens" _ (by decide)]
  exact payload_defaults_get_ne body "max_tokens" (by decide) (by decide)

theorem build_payload_get_max_tokens (body : Obj) (model : String) (stream : JVal)
    (limit : Int) :
    Obj.get (build_payload body model stream limit) "max_tokens" =
      some (.int (clamp_max_tokens ((Obj.get body "max_tokens").getD .null) limit)) := by
  unfold build_payload
  dsimp only
  rw [Obj.get_set_self, build_payload_pre_max_tokens]

theorem build_payload_get_model (body : Obj) (model : String) (stream : JVal) (limit : Int) :
    Obj.get (build_payload body model stream limit) "model" = some (.str model) := by
  unfold build_payload
  dsimp only
  rw [Obj.get_set_ne _ "max_tokens" "model" _ (by decide),
    Obj.get_set_ne _ "stream" "model" _ (by decide)]
  exact Obj.get_set_self _ "model" _

theorem build_payload_get_stream (body : Obj) (model : String) (stream : JVal) (limit : Int) :
    Obj.get (build_payload body model stream limit) "stream" = some stream := by
  unfold build_payload
  dsimp only
  rw [Obj.get_set_ne _ "max_tokens" "stream" _ (by decide)]
  exact Obj.get_set_self _ "stream" _

theorem build_payload_get_messages (body : Obj) (model : String) (stream : JVal) (limit : Int) :
    Obj.get (build_payload body model stream limit) "messages" =
      Obj.get (Obj.setdefault body "messages" (.arr [])) "messages" := by
  unfold build_payload
  dsimp only
  rw [Obj.get_set_ne _ "max_tokens" "messages" _ (by decide),
    Obj.get_set_ne _ "stream" "messages" _ (by decide),
    Obj.get_set_ne _ "model" "messages" _ (by decide)]
  unfold payload_defaults
  dsimp only
  split
  · rfl
  · exact Obj.get_set_ne _ "temperature" "messages" _ (by decide)

theorem build_payload_get_temperature (body : Obj) (model : String) (stream : JVal)
    (limit : Int) :
    Obj.get (build_payload body model stream limit) "temperature" =
      Obj.get (payload_defaults body) "temperature" := by
  unfold build_payload
  dsimp only
  rw [Obj.get_set_ne _ "max_tokens" "temperature" _ (by decide),
    Obj.get_set_ne _ "stream" "temperature" _ (by decide),
    Obj.get_set_ne _ "model" "temperature" _ (by decide)]

/-- Inversion of `handle_chat_payload`. -/
theorem handle_chat_payload_inv (body : Obj) (p : Obj)
    (hp : handle_chat_payload body = some p) :
    ∃ mcfg, MODELS.find? (fun kv =>
        kv.1 == resolve_model_jval ((Obj.get body "model").getD (.str DEFAULT_MODEL))) = some mcfg ∧
      p = build_payload body
        (resolve_model_jval ((Obj.get body "model").getD (.str DEFAULT_MODEL)))
        ((Obj.get body "stream").getD (.bool false)) mcfg.2.max_tokens := by
  unfold handle_chat_payload at hp
  dsimp only at hp
  split at hp
  · split at hp
    · exact absurd hp (by simp)
    · rename_i mcfg hfind
      exact ⟨mcfg, hfind, (Option.some.inj hp).symm⟩
  · exact absurd hp (by simp)

/-! ## Clamp lemmas -/

theorem clamp_of_pyToInt (v : JVal) (n limit : Int) (h : pyToInt v = some n) :
    clamp_max_tokens v limit = min n limit := by
  cases v <;> simp_all [clamp_max_tokens, pyToInt]

theorem clamp_of_fail (v : JVal) (limit : Int) (h : pyToInt v = none) :
    clamp_max_tokens v limit = min 4096 limit := by
  cases v <;> simp_all [clamp_max_tokens, pyToInt]

theorem clamp_le_limit (v : JVal) (limit : Int) : clamp_max_tokens v limit ≤ limit := by
  unfold clamp_max_tokens
  split
  · exact min_le_right _ _
  · split
    · exact min_le_right _ _
    · exact min_le_right _ _

/-! ## Claim theorems -/

/-- C8: model resolution is total and idempotent: `resolve_model` always
returns a valid profile id (an exact profile id resolves to itself, and
alias/default fallback lands on a profile id), resolving twice equals
resolving once, and every canonical profile id resolves to itself. -/
theorem spec_C8 :
    (∀ s : String, isModelId (resolve_model s) = true) ∧
    (∀ s : String, resolve_model (resolve_model s) = resolve_model s) ∧
    (∀ c : String, isModelId c = true → resolve_model c = c) := by
  have hfix : ∀ c : String, isModelId c = true → resolve_model c = c := by
    intro c h
    unfold resolve_model
    rw [if_pos h]
  have htotal : ∀ s : String, isModelId (resolve_model s) = true := by
    intro s
    unfold resolve_model
    split
    · assumption
    · cases halias : MODEL_ALIASES.find? (fun kv => kv.1 == s) with
      | none => decide
      | some kv =>
        have hmem : kv ∈ MODEL_ALIASES := List.mem_of_find?_eq_some halias
        have hall : ∀ kv' ∈ MODEL_ALIASES, isModelId kv'.2 = true := by decide
        simpa using hall kv hmem
  exact ⟨htotal, fun s => hfix _ (htotal s), hfix⟩

/-- C8 witness: concrete instances of the hypothesis-bearing conjunct. -/
theorem spec_C8_witness :
    resolve_model "glm-4.7" = "glm-4.7" ∧
    resolve_model (resolve_model "gpt-4") = resolve_model "gpt-4" :=
  ⟨spec_C8.2.2 "glm-4.7" (by decide), spec_C8.2.1 "gpt-4"⟩

/-- C10: clamping enforces no lower bound and coerces any value Python
`int()` accepts: whenever the converted integer does not exceed the
ceiling it is forwarded unchanged (negative and zero included), `3.9`
truncates to `3`, `true` becomes `1`, and only converted values above
the ceiling are reduced (to the ceiling itself). -/
theorem spec_C10 :
    (∀ (v : JVal) (n limit : Int), pyToInt v = some n → n ≤ limit →
        clamp_max_tokens v limit = n) ∧
    (∀ limit : Int, (-5 : Int) ≤ limit → clamp_max_tokens (.int (-5)) limit = -5) ∧
    (∀ limit : Int, (3 : Int) ≤ limit → clamp_max_tokens (.float 39 10) limit = 3) ∧
    (∀ limit : Int, (1 : Int) ≤ limit → clamp_max_tokens (.bool true) limit = 1) ∧
    (∀ (v : JVal) (n limit : Int), pyToInt v = some n → limit < n →
        clamp_max_tokens v limit = limit) := by
    refine ⟨?_, ?_, ?_, ?_, ?_⟩
    · intro v n limit h hle
      rw [clamp_of_pyToInt v n limit h]
      exact min_eq_left hle
    · intro limit h
      rw [clamp_of_pyToInt (.int (-5)) (-5) limit rfl]
      exact min_eq_left h
    · intro limit h
      rw [clamp_of_pyToInt (.float 39 10) 3 limit rfl]
      exact min_eq_left h
    · intro limit h
      rw [clamp_of_pyToInt (.bool true) 1 limit rfl]
      exact min_eq_left h
    · intro v n limit h hlt
      rw [clamp_of_pyToInt v n limit h]
      exact min_eq_right hlt.le

/-- C10 witness: the concrete examples of the claim with ceiling 8192. -/
theorem spec_C10_witness :
    clamp_max_tokens (.int (-5)) 8192 = -5 ∧
    clamp_max_tokens (.float 39 10) 8192 = 3 ∧
    clamp_max_tokens (.bool true) 8192 = 1 ∧
    clamp_max_tokens (.int 0) 8192 = 0 ∧
    clamp_max_tokens (.int 999999) 8192 = 8192 :=
  ⟨spec_C10.2.1 8192 (by decide),
   spec_C10.2.2.1 8192 (by decide),
   spec_C10.2.2.2.1 8192 (by decide),
   spec_C10.1 (.int 0) 0 8192 rfl (by decide),
   spec_C10.2.2.2.2 (.int 999999) 999999 8192 rfl (by decide)⟩

/-- C1: for every inbound body whose model value the handler can resolve
(hashable — an unhashable model value makes `name in MODELS` raise and
no payload is built), `handle_chat` builds an upstream payload whose
`max_tokens` equals `clamp_max_tokens` of the caller's raw value against
the resolved profile's ceiling `L`: `min(requested, L)` when the value
converts to an integer, `min(4096, L)` when it is absent, null or
unparsable; in all cases the outbound value never exceeds `L`. -/
theorem spec_C1 (body : Obj) (mcfg : String × ModelProfile)
    (hh : pyHashable ((Obj.get body "model").getD (.str DEFAULT_MODEL)) = true)
    (hm : MODELS.find? (fun kv =>
        kv.1 == resolve_model_jval ((Obj.get body "model").getD (.str DEFAULT_MODEL))) =
      some mcfg) :
    ∃ p, handle_chat_payload body = some p ∧
      Obj.get p "max_tokens" =
        some (.int (clamp_max_tokens ((Obj.get body "max_tokens").getD .null)
          mcfg.2.max_tokens)) ∧
      (∀ n : Int, pyToInt ((Obj.get body "max_tokens").getD .null) = some n →
        Obj.get p "max_tokens" = some (.int (min n mcfg.2.max_tokens))) ∧
      (pyToInt ((Obj.get body "max_tokens").getD .null) = none →
        Obj.get p "max_tokens" = some (.int (min 4096 mcfg.2.max_tokens))) ∧
      (∀ n : Int, Obj.get p "max_tokens" = some (.int n) → n ≤ mcfg.2.max_tokens) := by
  refine ⟨build_payload body
      (resolve_model_jval ((Obj.get body "model").getD (.str DEFAULT_MODEL)))
      ((Obj.get body "stream").getD (.bool false)) mcfg.2.max_tokens, ?_, ?_, ?_, ?_, ?_⟩
  · unfold handle_chat_payload
    dsimp only
    rw [hh, if_pos rfl, hm]
  · exact build_payload_get_max_tokens body _ _ _
  · intro n hn
    rw [build_payload_get_max_tokens body _ _ _, clamp_of_pyToInt _ n _ hn]
  · intro hn
    rw [build_payload_get_max_tokens body _ _ _, clamp_of_fail _ _ hn]
  · intro n hn
    rw [build_payload_get_max_tokens body _ _ _] at hn
    have := Option.some.inj hn
    have hv : n = clamp_max_tokens ((Obj.get body "max_tokens").getD .null)
        mcfg.2.max_tokens := by
      injection this.symm
    rw [hv]
    exact clamp_le_limit _ _

/-- C1 witness: a body requesting 999999 tokens against the 8192 ceiling
of the default profile. -/
theorem spec_C1_witness :
    ∃ p, handle_chat_payload [("max_tokens", .int 999999)] = some p ∧
      Obj.get p "max_tokens" = some (.int 8192) := by
  obtain ⟨p, hp, _, hsome, _, _⟩ :=
    spec_C1 [("max_tokens", .int 999999)] ("glm-4.7-flash",
      ⟨"https://api.z.ai/api/paas/v4/chat/completions", 8192⟩) rfl rfl
  exact ⟨p, hp, by simpa using hsome 999999 rfl⟩

/-- C7: the upstream payload preserves every inbound field except the
five governed keys: `model` and `stream` are overwritten, `max_tokens`
is overwritten by clamping, and `messages`/`temperature` are supplied
only when absent (the caller's values win when present); every other key
maps to its inbound value. -/
theorem spec_C7 (body : Obj) (p : Obj) (hp : handle_chat_payload body = some p) :
    (∀ k : String, k ≠ "model" → k ≠ "stream" → k ≠ "max_tokens" → k ≠ "messages" →
        k ≠ "temperature" → Obj.get p k = Obj.get body k) ∧
    Obj.get p "model" =
      some (.str (resolve_model_jval ((Obj.get body "model").getD (.str DEFAULT_MODEL)))) ∧
    Obj.get p "stream" = some ((Obj.get body "stream").getD (.bool false)) ∧
    (Obj.hasKey body "messages" = true → Obj.get p "messages" = Obj.get body "messages") ∧
    (Obj.hasKey body "messages" = false → Obj.get p "messages" = some (.arr [])) ∧
    (Obj.hasKey body "temperature" = true →
        Obj.get p "temperature" = Obj.get body "temperature") ∧
    (Obj.hasKey body "temperature" = false →
        Obj.get p "temperature" = some (.float 7 10)) ∧
    (∃ mcfg, MODELS.find? (fun kv =>
        kv.1 == resolve_model_jval ((Obj.get body "model").getD (.str DEFAULT_MODEL))) =
          some mcfg ∧
      Obj.get p "max_tokens" =
        some (.int (clamp_max_tokens ((Obj.get body "max_tokens").getD .null)
          mcfg.2.max_tokens))) := by
  obtain ⟨mcfg, hfind, rfl⟩ := handle_chat_payload_inv body p hp
  refine ⟨?_, build_payload_get_model _ _ _ _, build_payload_get_stream _ _ _ _,
    ?_, ?_, ?_, ?_, mcfg, hfind, build_payload_get_max_tokens _ _ _ _⟩
  · intro k h3 h4 h5 h1 h2
    exact build_payload_get_passthrough body _ _ _ k h1 h2 h3 h4 h5
  · intro h
    rw [build_payload_get_messages]
    exact Obj.get_setdefault_present body "messages" _ h
  · intro h
    rw [build_payload_get_messages]
    exact Obj.get_setdefault_absent body "messages" _ h
  · intro h
    rw [build_payload_get_temperature]
    unfold payload_defaults
    dsimp only
    have hk : Obj.hasKey (Obj.setdefault body "messages" (.arr [])) "temperature" = true := by
      rw [Obj.hasKey_setdefault_ne body "messages" "temperature" _ (by decide)]
      exact h
    rw [if_pos hk]
    exact Obj.get_setdefault_ne body "messages" "temperature" _ (by decide)
  · intro h
    rw [build_payload_get_temperature]
    unfold payload_defaults
    dsimp only
    have hk : Obj.hasKey (Obj.setdefault body "messages" (.arr [])) "temperature" = false := by
      rw [Obj.hasKey_setdefault_ne body "messages" "temperature" _ (by decide)]
      exact h
    rw [if_neg (by simp [hk])]
    rw [Obj.get_set_self]

/-- C7 witness: a body with an unrecognized field `foo` and a caller
`temperature`; `foo` is preserved and `temperature` is not overwritten. -/
theorem spec_C7_witness :
    ∃ p, handle_chat_payload
        [("foo", .str "bar"), ("temperature", .int 1)] = some p ∧
      Obj.get p "foo" = some (.str "bar") ∧
      Obj.get p "temperature" = some (.int 1) ∧
      Obj.get p "messages" = some (.arr []) := by
  have hp : handle_chat_payload [("foo", .str "bar"), ("temperature", .int 1)] =
      some [("foo", .str "bar"), ("temperature", .int 1), ("messages", .arr []),
            ("model", .str "glm-4.7-flash"), ("stream", .bool false),
            ("max_tokens", .int 4096)] := rfl
  obtain ⟨hpass, _, _, _, hmsg, htemp, _, _⟩ :=
    spec_C7 [("foo", .str "bar"), ("temperature", .int 1)] _ hp
  refine ⟨_, hp, ?_, ?_, ?_⟩
  · rw [hpass "foo" (by decide) (by decide) (by decide) (by decide) (by decide)]
    rfl
  · rw [htemp (by decide)]
    rfl
  · exact hmsg (by decide)

/-! ## Sync-normalization totality lemmas -/

/-- A value that is a mapping or Python-falsy.  `ensure_role` succeeds
exactly on these shapes (a truthy non-mapping raises on subscription or
on `dict()`). -/
def objOrFalsy (v : JVal) : Prop := (∃ m, v = JVal.obj m) ∨ pyTruthy v = false

theorem Obj.get_isSome_of_hasKey (o : Obj) (k : String) (h : Obj.hasKey o k = true) :
    ∃ v, Obj.get o k = some v := by
  induction o with
  | nil => simp [Obj.hasKey] at h
  | cons kv t ih =>
    rw [Obj.hasKey_cons] at h
    rw [Obj.get_cons]
    by_cases hk : kv.1 = k
    · exact ⟨kv.2, by rw [if_pos hk]⟩
    · rw [if_neg hk]
      apply ih
      rcases (Bool.or_eq_true _ _).mp h with h1 | h1
      · exact absurd (of_decide_eq_true h1) hk
      · exact h1

theorem ensure_role_obj_ok (m : Obj) (dflt : String) :
    ∃ out, ensure_role (.obj m) dflt = .ok out := by
  unfold ensure_role
  by_cases ht : pyTruthy (.obj m) = true
  · rw [if_neg (by simp [ht])]
    simp only [pyIn]
    by_cases hr : Obj.hasKey m "role" = true
    · rw [if_pos hr]
      obtain ⟨rv, hrv⟩ := Obj.get_isSome_of_hasKey m "role" hr
      have hsub : pySubscript (.obj m) "role" = .ok rv := by
        simp only [pySubscript]
        rw [hrv]
      rw [hsub]
      simp only [pyDict]
      split
      · exact ⟨_, rfl⟩
      · exact ⟨_, rfl⟩
    · rw [if_neg hr]
      simp only [pyDict]
      exact ⟨_, rfl⟩
  · rw [if_pos (by simp [Bool.eq_false_iff.mpr ht])]
    exact ⟨_, rfl⟩

theorem ensure_role_ok (v : JVal) (dflt : String) (h : objOrFalsy v) :
    ∃ out, ensure_role v dflt = .ok out := by
  rcases h with ⟨m, rfl⟩ | hf
  · exact ensure_role_obj_ok m dflt
  · unfold ensure_role
    rw [if_pos (by simp [hf])]
    exact ⟨_, rfl⟩

theorem objOrFalsy_ite (x : JVal) (h : objOrFalsy x) :
    objOrFalsy (if pyTruthy x = true then x else JVal.obj []) := by
  by_cases hx : pyTruthy x = true
  · rwa [if_pos hx]
  · rw [if_neg hx]
    exact Or.inl ⟨[], rfl⟩

theorem choice_prefilter_obj_ok (c : Obj) (i : Nat)
    (hmsg : ∀ v, Obj.get c "message" = some v → objOrFalsy v)
    (hdel : ∀ v, Obj.get c "delta" = some v → objOrFalsy v) :
    ∃ out, choice_prefilter (.obj c) i = .ok out := by
  unfold choice_prefilter
  dsimp only
  have h0 : objOrFalsy ((Obj.get c "message").getD .null) := by
    cases hx : Obj.get c "message" with
    | none => exact Or.inr rfl
    | some v => exact hmsg v hx
  have h0d : objOrFalsy ((Obj.get c "delta").getD .null) := by
    cases hx : Obj.get c "delta" with
    | none => exact Or.inr rfl
    | some v => exact hdel v hx
  have h1 : objOrFalsy (if !(pyTruthy ((Obj.get c "message").getD .null)) &&
      Obj.hasKey c "delta" then (Obj.get c "delta").getD .null
      else (Obj.get c "message").getD .null) := by
    split
    · exact h0d
    · exact h0
  obtain ⟨nm, hnm⟩ := ensure_role_ok _ "assistant" (objOrFalsy_ite _ h1)
  rw [hnm]
  exact ⟨_, rfl⟩

theorem normalize_choice_obj_ok (c : Obj) (i : Nat)
    (hmsg : ∀ v, Obj.get c "message" = some v → objOrFalsy v)
    (hdel : ∀ v, Obj.get c "delta" = some v → objOrFalsy v) :
    ∃ out, normalize_choice (.obj c) i = .ok out := by
  obtain ⟨pre, hpre⟩ := choice_prefilter_obj_ok c i hmsg hdel
  exact ⟨_, by unfold normalize_choice; rw [hpre]; rfl⟩

theorem mapEx_ok (f : Nat × JVal → Except Unit Obj) (l : List (Nat × JVal))
    (h : ∀ x ∈ l, ∃ y, f x = .ok y) : ∃ ys, mapEx f l = .ok ys := by
  induction l with
  | nil => exact ⟨[], rfl⟩
  | cons a t ih =>
    obtain ⟨y, hy⟩ := h a (List.mem_cons_self a t)
    obtain ⟨ys, hys⟩ := ih (fun x hx => h x (List.mem_cons_of_mem a hx))
    refine ⟨y :: ys, ?_⟩
    unfold mapEx
    rw [hy, hys]

/-- C5: when the upstream body's `choices` is absent or the empty array,
the normalized response's `choices` is exactly the one synthesized
default choice `{index 0, message {role assistant, content ""},
finish_reason "stop"}`. -/
theorem spec_C5 (r : Obj) (model newId : String) (now : Int)
    (h : Obj.get r "choices" = none ∨ Obj.get r "choices" = some (.arr [])) :
    ∃ p, normalize_response (.obj r) model newId now = .ok p ∧
      Obj.get p "choices" = some (.arr [.obj default_choice]) := by
  have hcs : (Obj.get r "choices").getD (.arr []) = .arr [] := by
    rcases h with h | h <;> rw [h] <;> rfl
  refine ⟨Obj.set (Obj.set (Obj.setdefault (Obj.setdefault (Obj.setdefault r "id"
      (.str newId)) "object" (.str "chat.completion")) "created" (.int now)) "model"
      (.str model)) "choices" (.arr [.obj default_choice]),
    ?_, Obj.get_set_self _ "choices" _⟩
  simp only [normalize_response]
  rw [hcs]
  rfl

/-- C5 witness: the empty upstream body. -/
theorem spec_C5_witness :
    ∃ p, normalize_response (.obj []) "m" "id0" 0 = .ok p ∧
      Obj.get p "choices" = some (.arr [.obj default_choice]) :=
  spec_C5 [] "m" "id0" 0 (Or.inl rfl)

/-- C4 counterexample: an upstream body whose `choices` entry is a bare
string (not a mapping) makes `normalize_choice` raise (`dict("hi")`), so
`normalize_response` raises instead of returning a response — refuting
the claim that it is total for choices entries that are not objects. -/
theorem spec_C4_counterexample :
    normalize_response (.obj [("choices", .arr [.str "hi"])]) "m" "id0" 0 = .error () := rfl

/-- C4 (amended): sync response normalization is not total — a
non-mapping `choices` entry such as a bare string makes `dict(choice)`
raise (the counterexample) — but it never raises and degrades via
defaults on the shapes below, a sufficient condition: the upstream body
is a mapping whose `choices`, when present, is an array of mappings in
which any `message`/`delta` values are mappings or falsy.  (The code is
also total on some further message shapes, e.g. sequences of key/value
pairs, which this sufficient condition does not cover.) -/
theorem spec_C4 (r : Obj) (model newId : String) (now : Int)
    (hch : Obj.get r "choices" = none ∨
      ∃ cs, Obj.get r "choices" = some (.arr cs) ∧
        ∀ c ∈ cs, ∃ co, c = JVal.obj co ∧
          (∀ v, Obj.get co "message" = some v → objOrFalsy v) ∧
          (∀ v, Obj.get co "delta" = some v → objOrFalsy v)) :
    ∃ p, normalize_response (.obj r) model newId now = .ok p := by
  obtain ⟨cs, hgd, hall⟩ : ∃ cs, (Obj.get r "choices").getD (.arr []) = .arr cs ∧
      ∀ c ∈ cs, ∃ co, c = JVal.obj co ∧
        (∀ v, Obj.get co "message" = some v → objOrFalsy v) ∧
        (∀ v, Obj.get co "delta" = some v → objOrFalsy v) := by
    rcases hch with h | ⟨cs, h, hall⟩
    · exact ⟨[], by rw [h]; rfl, by simp⟩
    · exact ⟨cs, by rw [h]; rfl, hall⟩
  have hok : ∀ x ∈ cs.enum, ∃ y, normalize_choice x.2 x.1 = .ok y := by
    intro x hx
    have hmem : x.2 ∈ cs := by
      have hq := List.mem_enum_iff_get?.mp hx
      exact List.get?_mem hq
    obtain ⟨co, hco, hm, hd⟩ := hall x.2 hmem
    rw [hco]
    exact normalize_choice_obj_ok co x.1 hm hd
  obtain ⟨ys, hys⟩ := mapEx_ok _ cs.enum hok
  refine ⟨Obj.set (Obj.set (Obj.setdefault (Obj.setdefault (Obj.setdefault r "id"
      (.str newId)) "object" (.str "chat.completion")) "created" (.int now)) "model"
      (.str model)) "choices"
      (.arr ((if ys.isEmpty then [default_choice] else ys).map JVal.obj)), ?_⟩
  simp only [normalize_response]
  rw [hgd]
  simp only [pyIter]
  rw [hys]

/-- C4 witness: a body with one well-shaped choice. -/
theorem spec_C4_witness :
    ∃ p, normalize_response (.obj [("choices", .arr [.obj [("message",
        .obj [("content", .str "hi")])]])]) "m" "id0" 0 = .ok p :=
  spec_C4 _ "m" "id0" 0 (Or.inr ⟨_, rfl, by
    intro c hc
    rw [List.mem_singleton] at hc
    subst hc
    refine ⟨_, rfl, ?_, ?_⟩
    · intro v hv
      have hv' : JVal.obj [("content", .str "hi")] = v := by
        have : Obj.get [("message", JVal.obj [("content", JVal.str "hi")])] "message" =
            some (JVal.obj [("content", JVal.str "hi")]) := rfl
        rw [this] at hv
        exact Option.some.inj hv
      exact Or.inl ⟨_, hv'.symm⟩
    · intro v hv
      have : Obj.get [("message", JVal.obj [("content", JVal.str "hi")])] "delta" =
          none := rfl
      rw [this] at hv
      cases hv⟩)

/-! ## Hoisting lemmas -/

theorem Obj.hasKey_map_set_ne (o : Obj) (k' k : String) (v : JVal) (h : k' ≠ k) :
    Obj.hasKey (o.map (fun kv => if kv.1 == k' then (k', v) else kv)) k = Obj.hasKey o k := by
  induction o with
  | nil => rfl
  | cons kv t ih =>
    rw [List.map_cons]
    by_cases hk : kv.1 = k'
    · rw [if_pos (by simp [hk]), Obj.hasKey_cons, Obj.hasKey_cons, ih, hk]
    · rw [if_neg (by simp [hk]), Obj.hasKey_cons, Obj.hasKey_cons, ih]

theorem Obj.hasKey_set_ne (o : Obj) (k' k : String) (v : JVal) (h : k' ≠ k) :
    Obj.hasKey (Obj.set o k' v) k = Obj.hasKey o k := by
  unfold Obj.set
  split
  · exact Obj.hasKey_map_set_ne o k' k v h
  · exact Obj.hasKey_append_single_ne o k' k v h

/-- The body of the hoisting loop. -/
def hoist_step (c : Obj) (acc : Obj) (f : String) : Obj :=
  if Obj.hasKey c f && !(Obj.hasKey acc f) then
    Obj.set acc f ((Obj.get c f).getD .null)
  else acc

theorem hoist_fields_eq_foldl (c m : Obj) :
    hoist_fields c m = MESSAGE_LEVEL_FIELDS.foldl (hoist_step c) m := rfl

theorem hoist_step_triggered (c acc : Obj) (g : String)
    (h : (Obj.hasKey c g && !(Obj.hasKey acc g)) = true) :
    hoist_step c acc g = Obj.set acc g ((Obj.get c g).getD .null) := by
  unfold hoist_step
  rw [if_pos h]

theorem hoist_step_skipped (c acc : Obj) (g : String)
    (h : ¬ (Obj.hasKey c g && !(Obj.hasKey acc g)) = true) :
    hoist_step c acc g = acc := by
  unfold hoist_step
  rw [if_neg h]

theorem hoist_foldl_preserve (c : Obj) (l : List String) (acc : Obj) (f : String)
    (hf : f ∉ l) : Obj.get (l.foldl (hoist_step c) acc) f = Obj.get acc f := by
  induction l generalizing acc with
  | nil => rfl
  | cons g t ih =>
    have hg : g ≠ f := fun hgf => hf (hgf ▸ List.mem_cons_self g t)
    rw [List.foldl_cons, ih _ (fun hmem => hf (List.mem_cons_of_mem g hmem))]
    by_cases hcond : (Obj.hasKey c g && !(Obj.hasKey acc g)) = true
    · rw [hoist_step_triggered c acc g hcond]
      exact Obj.get_set_ne acc g f _ hg
    · rw [hoist_step_skipped c acc g hcond]

theorem hoist_foldl_already_present (c : Obj) (l : List String) (acc : Obj) (f : String)
    (hm : Obj.hasKey acc f = true) :
    Obj.get (l.foldl (hoist_step c) acc) f = Obj.get acc f := by
  induction l generalizing acc with
  | nil => rfl
  | cons g t ih =>
    rw [List.foldl_cons]
    by_cases hg : g = f
    · subst hg
      rw [hoist_step_skipped c acc g (by simp [hm])]
      exact ih acc hm
    · by_cases hcond : (Obj.hasKey c g && !(Obj.hasKey acc g)) = true
      · rw [hoist_step_triggered c acc g hcond,
          ih _ (by rw [Obj.hasKey_set_ne acc g f _ hg]; exact hm),
          Obj.get_set_ne acc g f _ hg]
      · rw [hoist_step_skipped c acc g hcond]
        exact ih acc hm

theorem hoist_foldl_copies (c : Obj) (l : List String) (acc : Obj) (f : String)
    (hf : f ∈ l) (hnd : l.Nodup) (hc : Obj.hasKey c f = true)
    (hm : Obj.hasKey acc f = false) :
    Obj.get (l.foldl (hoist_step c) acc) f = Obj.get c f := by
  induction l generalizing acc with
  | nil => simp at hf
  | cons g t ih =>
    rw [List.foldl_cons]
    by_cases hg : g = f
    · subst hg
      have hnotin : g ∉ t := (List.nodup_cons.mp hnd).1
      rw [hoist_foldl_preserve c t _ g hnotin,
        hoist_step_triggered c acc g (by simp [hc, hm]),
        Obj.get_set_self]
      obtain ⟨v, hv⟩ := Obj.get_isSome_of_hasKey c g hc
      rw [hv]
      rfl
    · have hft : f ∈ t := by
        rcases List.mem_cons.mp hf with h | h
        · exact absurd h.symm hg
        · exact h
      have hnd' : t.Nodup := (List.nodup_cons.mp hnd).2
      by_cases hcond : (Obj.hasKey c g && !(Obj.hasKey acc g)) = true
      · rw [hoist_step_triggered c acc g hcond]
        exact ih _ hft hnd' (by rw [Obj.hasKey_set_ne acc g f _ hg]; exact hm)
      · rw [hoist_step_skipped c acc g hcond]
        exact ih acc hft hnd' hm

theorem hoist_fields_copies (c m : Obj) (f : String) (hf : f ∈ MESSAGE_LEVEL_FIELDS)
    (hc : Obj.hasKey c f = true) (hm : Obj.hasKey m f = false) :
    Obj.get (hoist_fields c m) f = Obj.get c f := by
  rw [hoist_fields_eq_foldl]
  exact hoist_foldl_copies c MESSAGE_LEVEL_FIELDS m f hf (by decide) hc hm

theorem hoist_fields_already_present (c m : Obj) (f : String)
    (hm : Obj.hasKey m f = true) :
    Obj.get (hoist_fields c m) f = Obj.get m f := by
  rw [hoist_fields_eq_foldl]
  exact hoist_foldl_already_present c MESSAGE_LEVEL_FIELDS m f hm

theorem hoist_fields_no_fields (c m : Obj)
    (h : ∀ f ∈ MESSAGE_LEVEL_FIELDS, Obj.hasKey c f = false) : hoist_fields c m = m := by
  rw [hoist_fields_eq_foldl]
  have hgen : ∀ l : List String, (∀ f ∈ l, Obj.hasKey c f = false) →
      l.foldl (hoist_step c) m = m := by
    intro l hl
    induction l with
    | nil => rfl
    | cons g t ih =>
      rw [List.foldl_cons,
        hoist_step_skipped c m g (by simp [hl g (List.mem_cons_self g t)])]
      exact ih (fun f hf => hl f (List.mem_cons_of_mem g hf))
  exact hgen MESSAGE_LEVEL_FIELDS h

/-! ## Minimization lemmas -/

theorem choice_prefilter_inv (c : Obj) (i : Nat) (pre : Obj)
    (h : choice_prefilter (.obj c) i = .ok pre) :
    ∃ nm, pre = Obj.pop (Obj.set (Obj.set (Obj.set c "index"
      ((Obj.get c "index").getD (.int i))) "finish_reason"
      ((Obj.get c "finish_reason").getD .null)) "message" nm) "delta" := by
  unfold choice_prefilter at h
  dsimp only at h
  split at h
  · cases h
  · exact ⟨_, (Except.ok.inj h).symm⟩

theorem stream_choice_prefilter_empty_delta (c : Obj) (i : Nat)
    (h1 : pyTruthy ((Obj.get c "delta").getD .null) = false)
    (h2 : pyTruthy ((Obj.get c "message").getD .null) = false)
    (h3 : hoist_fields c [] = []) :
    stream_choice_prefilter (.obj c) i = .ok (Obj.pop (Obj.set (Obj.set c "index"
      ((Obj.get c "index").getD (.int i))) "finish_reason"
      ((Obj.get c "finish_reason").getD .null)) "message") := by
  unfold stream_choice_prefilter
  dsimp only
  rw [h1]
  simp only [Bool.false_eq_true, if_false]
  rw [h2]
  simp only [Bool.false_eq_true, if_false]
  rw [h3]
  simp only [pyTruthy, List.isEmpty_nil, Bool.not_true, Bool.false_eq_true, if_false]

/-- C2: field minimization differs between the two normalization paths:
sync choice normalization drops every field whose value is null or the
empty mapping; stream choice normalization keeps every non-null field
(empty mappings included); in particular an upstream streamed choice
carrying `delta: {}` (with no truthy `message` and no hoistable
extension field, so the delta is still empty after enrichment) is
emitted with `delta: {}` intact, while a sync choice whose
`finish_reason` is null has that key omitted entirely. -/
theorem spec_C2 :
    (∀ (choice : JVal) (i : Nat) (out : Obj), normalize_choice choice i = .ok out →
      ∀ kv ∈ out, kv.2.isNull = false ∧ kv.2.isEmptyObj = false) ∧
    (∀ (choice : JVal) (i : Nat) (pre out : Obj),
      stream_choice_prefilter choice i = .ok pre →
      normalize_stream_choice choice i = .ok out →
      ∀ kv ∈ pre, kv.2.isNull = false → kv ∈ out) ∧
    (∀ (c : Obj) (i : Nat), Obj.get c "delta" = some (.obj []) →
      pyTruthy ((Obj.get c "message").getD .null) = false →
      (∀ f ∈ MESSAGE_LEVEL_FIELDS, Obj.hasKey c f = false) →
      ∃ out, normalize_stream_choice (.obj c) i = .ok out ∧
        Obj.get out "delta" = some (.obj [])) ∧
    (∀ (c : Obj) (i : Nat) (out : Obj), Obj.get c "finish_reason" = some .null →
      normalize_choice (.obj c) i = .ok out →
      Obj.hasKey out "finish_reason" = false) := by
  refine ⟨?_, ?_, ?_, ?_⟩
  · intro choice i out hok kv hkv
    unfold normalize_choice at hok
    cases hpre : choice_prefilter choice i with
    | error e => rw [hpre] at hok; cases hok
    | ok pre =>
      rw [hpre] at hok
      simp only [Except.map] at hok
      have hout := (Except.ok.inj hok).symm
      subst hout
      have hb := (List.mem_filter.mp hkv).2
      constructor
      · revert hb
        cases kv.2.isNull <;> simp
      · revert hb
        cases kv.2.isEmptyObj <;> simp
  · intro choice i pre out hpre hok kv hkv hnull
    unfold normalize_stream_choice at hok
    rw [hpre] at hok
    simp only [Except.map] at hok
    have hout := (Except.ok.inj hok).symm
    subst hout
    exact List.mem_filter.mpr ⟨hkv, by simp [hnull]⟩
  · intro c i hd hm hfields
    have h1 : pyTruthy ((Obj.get c "delta").getD .null) = false := by
      rw [hd]
      rfl
    have h3 : hoist_fields c [] = [] := hoist_fields_no_fields c [] hfields
    have hpre := stream_choice_prefilter_empty_delta c i h1 hm h3
    have hget3 : Obj.get (Obj.pop (Obj.set (Obj.set c "index"
        ((Obj.get c "index").getD (.int i))) "finish_reason"
        ((Obj.get c "finish_reason").getD .null)) "message") "delta" = some (.obj []) := by
      rw [Obj.get_pop_ne _ "message" "delta" (by decide),
        Obj.get_set_ne _ "finish_reason" "delta" _ (by decide),
        Obj.get_set_ne _ "index" "delta" _ (by decide)]
      exact hd
    refine ⟨(Obj.pop (Obj.set (Obj.set c "index" ((Obj.get c "index").getD (.int i)))
        "finish_reason" ((Obj.get c "finish_reason").getD .null)) "message").filter
        (fun kv => !kv.2.isNull), ?_, ?_⟩
    · unfold normalize_stream_choice
      rw [hpre]
      rfl
    · exact Obj.get_filter _ _ "delta" (.obj []) hget3 rfl
  · intro c i out hfr hok
    unfold normalize_choice at hok
    cases hpre : choice_prefilter (.obj c) i with
    | error e => rw [hpre] at hok; cases hok
    | ok pre =>
      rw [hpre] at hok
      simp only [Except.map] at hok
      have hout := (Except.ok.inj hok).symm
      subst hout
      obtain ⟨nm, hnm⟩ := choice_prefilter_inv c i pre hpre
      subst hnm
      apply Obj.hasKey_filter_of_all_dropped
      intro kv hmem hk
      obtain ⟨hmem2, hne_delta⟩ := Obj.mem_pop _ "delta" kv hmem
      rcases Obj.mem_set _ "message" nm kv hmem2 with hkv | ⟨hmem3, hne_msg⟩
      · rw [hkv] at hk
        exact absurd hk (show ¬("message" = "finish_reason") by decide)
      · rcases Obj.mem_set _ "finish_reason" _ kv hmem3 with hkv | ⟨_, hne_fr⟩
        · rw [hfr] at hkv
          rw [hkv]
          rfl
        · exact absurd hk hne_fr

/-- C2 witness: concrete instances — a sync choice with null
`finish_reason` loses the key, and a streamed choice with `delta: {}`
keeps it. -/
theorem spec_C2_witness :
    Obj.hasKey [("index", JVal.int 0),
      ("message", JVal.obj [("role", JVal.str "assistant"), ("content", JVal.str "")])]
      "finish_reason" = false ∧
    (∃ out, normalize_stream_choice (.obj [("delta", JVal.obj [])]) 0 = .ok out ∧
      Obj.get out "delta" = some (.obj [])) ∧
    ("delta", JVal.obj []) ∈ ([("delta", JVal.obj []), ("index", JVal.int 0)] : Obj) :=
  ⟨spec_C2.2.2.2 [("finish_reason", JVal.null)] 0 _ rfl rfl,
   spec_C2.2.2.1 [("delta", JVal.obj [])] 0 rfl rfl (by decide),
   spec_C2.2.1 (.obj [("delta", JVal.obj [])]) 0
     [("delta", JVal.obj []), ("index", JVal.int 0), ("finish_reason", JVal.null)]
     [("delta", JVal.obj []), ("index", JVal.int 0)] rfl rfl ("delta", JVal.obj [])
     (List.mem_cons_self _ _) rfl⟩

/-- C6 counterexample: a sync choice with a choice-level `tool_calls`
beside a message lacking it.  After normalization the field sits inside
the message AND is still present at the choice level — refuting the
claim that it "no longer" sits alongside at the choice level. -/
theorem spec_C6_counterexample :
    normalize_choice (.obj [("message", .obj [("role", .str "a")]),
      ("tool_calls", .arr [.str "x"])]) 0 =
    .ok [("message", .obj [("role", .str "a"), ("tool_calls", .arr [.str "x"])]),
         ("tool_calls", .arr [.str "x"]), ("index", .int 0)] := rfl

/-- C6 (amended): each extension field found at the choice level and
absent from the nested message/delta dict is copied into that dict with
the choice-level value (fields already nested are left untouched); the
choice-level copy is NOT removed — it survives into the output whenever
the path's minimization filter keeps its value, as the two concrete
instances show for the sync and stream paths. -/
theorem spec_C6 :
    (∀ (c m : Obj) (f : String), f ∈ MESSAGE_LEVEL_FIELDS → Obj.hasKey c f = true →
      Obj.hasKey m f = false → Obj.get (hoist_fields c m) f = Obj.get c f) ∧
    (∀ (c m : Obj) (f : String), Obj.hasKey m f = true →
      Obj.get (hoist_fields c m) f = Obj.get m f) ∧
    normalize_choice (.obj [("message", .obj [("role", .str "a")]),
      ("tool_calls", .arr [.str "x"])]) 0 =
      .ok [("message", .obj [("role", .str "a"), ("tool_calls", .arr [.str "x"])]),
           ("tool_calls", .arr [.str "x"]), ("index", .int 0)] ∧
    normalize_stream_choice (.obj [("delta", .obj [("role", .str "a")]),
      ("tool_calls", .arr [.str "x"])]) 0 =
      .ok [("delta", .obj [("role", .str "a"), ("tool_calls", .arr [.str "x"])]),
           ("tool_calls", .arr [.str "x"]), ("index", .int 0)] :=
  ⟨fun c m f hf hc hm => hoist_fields_copies c m f hf hc hm,
   fun c m f hm => hoist_fields_already_present c m f hm,
   rfl, rfl⟩

/-- C6 witness: hoisting copies a missing `tool_calls` into the message
and leaves an already-present one untouched. -/
theorem spec_C6_witness :
    Obj.get (hoist_fields [("tool_calls", .arr [.str "x"])] [("role", .str "a")])
      "tool_calls" = Obj.get [("tool_calls", .arr [.str "x"])] "tool_calls" ∧
    Obj.get (hoist_fields [("tool_calls", .arr [.str "y"])]
      [("tool_calls", .arr [.str "z"])]) "tool_calls" =
      Obj.get [("tool_calls", .arr [.str "z"])] "tool_calls" :=
  ⟨spec_C6.1 _ _ "tool_calls" (by decide) (by decide) (by decide),
   spec_C6.2.1 _ _ "tool_calls" (by decide)⟩

/-! ## Stream-loop lemmas -/

theorem build_stream_frame_not_done (chunk : JVal) (model chatId : String) (now : Int)
    (f : Frame) (h : build_stream_frame chunk model chatId now = .ok f) :
    f.isDone = false := by
  unfold build_stream_frame at h
  split at h
  · split at h
    · cases h
    · split at h
      · cases h
      · split at h
        · cases h
        · rw [← Except.ok.inj h]
          rfl
  · cases h

theorem line_step_frame_not_done (parse : String → Option JVal) (model chatId : String)
    (now : Int) (l : String) (f : Frame)
    (h : line_step parse model chatId now l = .frame f) : f.isDone = false := by
  unfold line_step at h
  dsimp only at h
  split at h
  · cases h
  · split at h
    · cases h
    · split at h
      · cases h
      · rename_i chunk hchunk
        split at h
        · rename_i f' hf'
          rw [LineStep.frame.inj h] at hf'
          exact build_stream_frame_not_done _ _ _ _ f hf'
        · cases h

theorem stream_loop_shape (parse : String → Option JVal) (model chatId : String)
    (now : Int) (lines : List String) :
    ((stream_loop parse model chatId now lines).2 = true →
      ∃ fs, (stream_loop parse model chatId now lines).1 = fs ++ [Frame.done] ∧
        fs.countP Frame.isDone = 0) ∧
    ((stream_loop parse model chatId now lines).2 = false →
      (stream_loop parse model chatId now lines).1.countP Frame.isDone = 0) := by
  induction lines with
  | nil =>
    constructor
    · intro h
      cases h
    · intro _
      rfl
  | cons l rest ih =>
    cases hls : line_step parse model chatId now l with
    | skip =>
      constructor
      · intro h
        rw [stream_loop, hls] at h ⊢
        exact ih.1 h
      · intro h
        rw [stream_loop, hls] at h ⊢
        exact ih.2 h
    | done =>
      constructor
      · intro _
        rw [stream_loop, hls]
        exact ⟨[], rfl, rfl⟩
      · intro h
        rw [stream_loop, hls] at h
        cases h
    | err =>
      constructor
      · intro h
        rw [stream_loop, hls] at h
        cases h
      · intro _
        rw [stream_loop, hls]
        rfl
    | frame f =>
      have hf : f.isDone = false := line_step_frame_not_done _ _ _ _ _ f hls
      constructor
      · intro h
        rw [stream_loop, hls] at h ⊢
        dsimp only at h ⊢
        obtain ⟨fs, hfs, hcount⟩ := ih.1 h
        refine ⟨f :: fs, ?_, ?_⟩
        · rw [hfs]
          rfl
        · rw [List.countP_cons, hcount, hf]
          rfl
      · intro h
        rw [stream_loop, hls] at h ⊢
        dsimp only at h ⊢
        rw [List.countP_cons, ih.2 h, hf]
        rfl

theorem stream_loop_stops_at_done (parse : String → Option JVal) (model chatId : String)
    (now : Int) (l : String) (hl : line_step parse model chatId now l = .done)
    (pre s1 s2 : List String) :
    stream_loop parse model chatId now (pre ++ l :: s1) =
      stream_loop parse model chatId now (pre ++ l :: s2) := by
  induction pre with
  | nil =>
    rw [List.nil_append, List.nil_append, stream_loop, hl, stream_loop, hl]
  | cons h t ih =>
    rw [List.cons_append, List.cons_append, stream_loop, stream_loop]
    cases hs : line_step parse model chatId now h <;> rw [ih]

theorem stream_loop_skips (parse : String → Option JVal) (model chatId : String)
    (now : Int) (l : String) (hl : line_step parse model chatId now l = .skip)
    (pre suf : List String) :
    stream_loop parse model chatId now (pre ++ l :: suf) =
      stream_loop parse model chatId now (pre ++ suf) := by
  induction pre with
  | nil =>
    rw [List.nil_append, List.nil_append, stream_loop, hl]
  | cons h t ih =>
    rw [List.cons_append, List.cons_append, stream_loop, stream_loop]
    cases hs : line_step parse model chatId now h <;> rw [ih]

/-- C3: over any finite sequence of upstream lines the outbound stream
contains the terminal sentinel frame exactly once and as its last frame:
it is forwarded (and consumption stops) when upstream sends it, and
synthesized by the `finally` block when upstream ends or errors without
it; it is never emitted twice. -/
theorem spec_C3 (parse : String → Option JVal) (model chatId : String) (now : Int) :
    (∀ lines : List String,
      (do_stream parse model chatId now lines).countP Frame.isDone = 1) ∧
    (∀ lines : List String,
      (do_stream parse model chatId now lines).getLast? = some Frame.done) ∧
    (∀ (pre s1 s2 : List String) (l : String),
      line_step parse model chatId now l = .done →
      do_stream parse model chatId now (pre ++ l :: s1) =
        do_stream parse model chatId now (pre ++ l :: s2)) := by
  have hout : ∀ lines : List String, ∃ fs,
      do_stream parse model chatId now lines = fs ++ [Frame.done] ∧
      fs.countP Frame.isDone = 0 := by
    intro lines
    cases hd : (stream_loop parse model chatId now lines).2 with
    | true =>
      obtain ⟨fs, hfs, hc⟩ := (stream_loop_shape parse model chatId now lines).1 hd
      refine ⟨fs, ?_, hc⟩
      unfold do_stream
      dsimp only
      rw [hd, if_pos rfl]
      exact hfs
    | false =>
      have hc := (stream_loop_shape parse model chatId now lines).2 hd
      refine ⟨(stream_loop parse model chatId now lines).1, ?_, hc⟩
      unfold do_stream
      dsimp only
      rw [hd, if_neg Bool.false_ne_true]
  refine ⟨?_, ?_, ?_⟩
  · intro lines
    obtain ⟨fs, hfs, hc⟩ := hout lines
    rw [hfs, List.countP_append, hc]
    rfl
  · intro lines
    obtain ⟨fs, hfs, _⟩ := hout lines
    rw [hfs]
    exact List.getLast?_concat _
  · intro pre s1 s2 l hdone
    unfold do_stream
    dsimp only
    rw [stream_loop_stops_at_done parse model chatId now l hdone pre s1 s2]

/-- C3 witness: once the sentinel line is reached, later upstream lines
are irrelevant to the outbound stream. -/
theorem spec_C3_witness :
    do_stream (fun _ => none) "m" "c" 0 (["junk"] ++ "data: [DONE]" :: ["data: x"]) =
      do_stream (fun _ => none) "m" "c" 0 (["junk"] ++ "data: [DONE]" :: ["data: y"]) :=
  (spec_C3 (fun _ => none) "m" "c" 0).2.2 ["junk"] ["data: x"] ["data: y"]
    "data: [DONE]" rfl

/-- C9: a line that is blank or lacks the `data:` marker, and a data line
whose payload fails JSON parsing (and is not the sentinel), is skipped:
it emits no outbound frame, does not terminate the loop, raises nothing,
and the stream produced from the remaining lines is exactly the stream
produced without the bad line — so every subsequent well-formed line
still yields its frame in order. -/
theorem spec_C9 (parse : String → Option JVal) (model chatId : String) (now : Int) :
    (∀ l : String, pyStartsWith (pyStrip l) "data:" = false →
      line_step parse model chatId now l = .skip) ∧
    (∀ l : String, pyStartsWith (pyStrip l) "data:" = true →
      (pyStrip (pyDropChars (pyStrip l) 5) == "[DONE]") = false →
      parse (pyStrip (pyDropChars (pyStrip l) 5)) = none →
      line_step parse model chatId now l = .skip) ∧
    (∀ (l : String) (rest : List String), line_step parse model chatId now l = .skip →
      stream_loop parse model chatId now (l :: rest) =
        stream_loop parse model chatId now rest) ∧
    (∀ (pre suf : List String) (l : String), line_step parse model chatId now l = .skip →
      do_stream parse model chatId now (pre ++ l :: suf) =
        do_stream parse model chatId now (pre ++ suf)) := by
  refine ⟨?_, ?_, ?_, ?_⟩
  · intro l h
    unfold line_step
    dsimp only
    rw [h]
    simp
  · intro l h1 h2 h3
    unfold line_step
    dsimp only
    have hne : (pyStrip l).data.isEmpty = false := by
      cases hd : (pyStrip l).data with
      | nil =>
        unfold pyStartsWith at h1
        rw [hd] at h1
        exact absurd h1 (by decide)
      | cons c t => rfl
    rw [hne, h1]
    simp only [Bool.not_true, Bool.or_false, Bool.false_eq_true, if_false]
    rw [h2]
    simp only [Bool.false_eq_true, if_false]
    rw [h3]
  · intro l rest h
    rw [stream_loop, h]
  · intro pre suf l h
    unfold do_stream
    dsimp only
    rw [stream_loop_skips parse model chatId now l h pre suf]

/-- C9 witness: a data line whose payload fails to parse is dropped from
the stream without affecting the rest. -/
theorem spec_C9_witness :
    do_stream (fun _ => none) "m" "c" 0 ([] ++ "data: notjson" :: ["data: [DONE]"]) =
      do_stream (fun _ => none) "m" "c" 0 ([] ++ ["data: [DONE]"]) :=
  (spec_C9 (fun _ => none) "m" "c" 0).2.2.2 [] ["data: [DONE]"] "data: notjson" rfl
